/-
  Verification of the pass-sequencing erasure engine of deno-remove-forever.

  The definitions below are a shallow embedding of src/lib/writer.ts and
  src/lib/remove.ts (which bundles remove.ts, logger.ts and standards.ts).
  Machine bytes are modelled as Nat with explicit % 256 where the source
  relies on Uint8Array coercion; the streaming Sha256 checksum is modelled
  as the list of bytes fed to it (a collision-free model of the digest);
  asynchronous effects are modelled by explicit state passing, serialising
  the fan-out/fan-in file phase of removeDirectory (file tasks touch
  disjoint paths, so the serialisation is faithful).
-/
import Mathlib

/-! ## Write engine (src/lib/writer.ts)

`Deno.copy(src, dest)` repeatedly calls `src.read(p)` with a fixed buffer
of DEFAULT_BUF_SIZE bytes and writes the first `n` returned bytes, until
`read` resolves `null`.  The custom reader in `FileWriter.write` computes
`length = min(p.byteLength, fileData.size)`, decrements `fileData.size`
by `length`, stops at `length = 0`, and otherwise fills the whole buffer
with `getValues` and emits its first `length` bytes. -/

/-- Buffer size used by Deno.copy (32 * 1024 bytes). -/
def DEFAULT_BUF_SIZE : Nat := 32 * 1024

/-- The first `n` bytes of a buffer filled by a getValues function `g`
(position `i` of the buffer holds `g i`). -/
def chunkContent (g : Nat → Nat) (n : Nat) : List Nat :=
  (List.range n).map g

/-- The successive chunks emitted by the custom reader, one per `read`
call: each call emits `min B size` bytes and decrements the tracked size.
The fuel argument is an upper bound on the number of calls; `size` fuel
suffices because every emitted chunk is nonempty when `0 < B`. -/
def writeChunksAux (B : Nat) (g : Nat → Nat) : Nat → Nat → List (List Nat)
  | 0, _ => []
  | _ + 1, 0 => []
  | fuel + 1, size + 1 =>
      chunkContent g (min B (size + 1)) ::
        writeChunksAux B g fuel (size + 1 - min B (size + 1))

/-- All chunks emitted by one write pass over an object of the given size. -/
def writeChunks (B : Nat) (g : Nat → Nat) (size : Nat) : List (List Nat) :=
  writeChunksAux B g size size

/-- The byte stream emitted by one write pass. -/
def writtenBytes (B : Nat) (g : Nat → Nat) (size : Nat) : List Nat :=
  (writeChunks B g size).flatten

/-- FileData of writer.ts: path, tracked size, streaming checksum state
(modelled as the list of bytes fed to the Sha256), verify-next-write flag. -/
structure FileData where
  path : String
  size : Nat
  checksum : List Nat
  verifyChecksum : Bool
deriving Repr, DecidableEq

/-- State of one file-erasure procedure: the FileData, the bytes currently
on disk at its path, and the trace of byte streams emitted by the completed
write passes (the trace is auxiliary observation, not source state). -/
structure WState where
  fd : FileData
  content : List Nat
  trace : List (List Nat)
deriving Repr, DecidableEq

/-- Model of the Sha256 hex digest of a byte stream; injective, which
models collision-freedom of the digest. -/
def sha256hex (l : List Nat) : List Nat := l

/-- FileWriter.init: stats the path; rejects when it is not a regular
file; otherwise returns fresh FileData with the stat size. -/
def FileWriter.init (path : String) (isFile : Bool) (size : Nat) :
    Except String FileData :=
  if isFile then
    .ok { path := path, size := size, checksum := [], verifyChecksum := false }
  else
    .error "The specified path is not a file."

/-- FileWriter.verifyNext: sets the verify flag and resets the checksum. -/
def FileWriter.verifyNext (s : WState) : WState :=
  { s with fd := { s.fd with verifyChecksum := true, checksum := [] } }

/-- FileWriter.verify: re-reads the file, hashes it, and rejects when the
digest differs from the accumulated one. -/
def FileWriter.verify (s : WState) : Except String Unit :=
  if sha256hex s.fd.checksum = sha256hex s.content then .ok ()
  else .error "Invalid checksum"

/-- FileWriter.write: streams `writtenBytes` over the file (the tracked
size is decremented to 0 by the reader), accumulates the checksum over the
emitted chunks when the verify flag is set, then, when the flag is set,
clears it and runs verification against the re-read file. -/
def FileWriter.write (B : Nat) (g : Nat → Nat) (s : WState) :
    Except String WState :=
  let out := writtenBytes B g s.fd.size
  let fd' : FileData :=
    { s.fd with
      size := s.fd.size - out.length
      checksum := if s.fd.verifyChecksum then s.fd.checksum ++ out
                  else s.fd.checksum }
  let s' : WState :=
    { fd := fd'
      content := out ++ s.content.drop out.length
      trace := s.trace ++ [out] }
  if s.fd.verifyChecksum then
    let s'' : WState := { s' with fd := { fd' with verifyChecksum := false } }
    (FileWriter.verify s'').map (fun _ => s'')
  else
    .ok s'

/-- Zero.getValues: p.fill(0x000000); Uint8Array.fill coerces to a byte. -/
def Zero.getValues : Nat → Nat := fun _ => 0x000000 % 256

/-- One.getValues: p.fill(0xFFFFFF); Uint8Array.fill coerces to a byte. -/
def One.getValues : Nat → Nat := fun _ => 0xFFFFFF % 256

/-- RandomByte.getValues: one random byte `b` replicated over the buffer. -/
def RandomByte.getValues (b : Nat) : Nat → Nat := fun _ => b % 256

/-- Byte.getValues: p.fill(byte). -/
def Byte.getValues (byte : Nat) : Nat → Nat := fun _ => byte % 256

/-- ByteArray.getValues: p[i] = byteArray[i % length] for every buffer
position i (the index is the position inside the buffer, not in the file). -/
def ByteArray.getValues (byteArray : List Nat) : Nat → Nat :=
  fun i => byteArray.getD (i % byteArray.length) 0 % 256

def Zero.write (B : Nat) (s : WState) : Except String WState :=
  FileWriter.write B Zero.getValues s

def One.write (B : Nat) (s : WState) : Except String WState :=
  FileWriter.write B One.getValues s

def RandomByte.write (B : Nat) (b : Nat) (s : WState) : Except String WState :=
  FileWriter.write B (RandomByte.getValues b) s

def ByteArray.write (B : Nat) (byteArray : List Nat) (s : WState) :
    Except String WState :=
  FileWriter.write B (ByteArray.getValues byteArray) s

/-- Steps of fileStandards.zero: a single call of One.write (the source
invokes the One pattern, not the Zero pattern). -/
def fileStandards.zeroSteps (B : Nat) (s : WState) : Except String WState :=
  One.write B s

/-- Steps of fileStandards.GOST-R50739-95: a zero pass then a random-byte
pass, with `b` the byte drawn by the second pass. -/
def fileStandards.gostSteps (B : Nat) (b : Nat) (s : WState) :
    Except String WState :=
  (Zero.write B s).bind (RandomByte.write B b)

/-- Steps of fileStandards.AFSSI-5020: a zero pass, a one pass, then
FileWriter.verifyNext followed by a random-byte pass (the verified pass),
with `b` the byte drawn by the last pass. -/
def fileStandards.afssiSteps (B : Nat) (b : Nat) (s : WState) :
    Except String WState :=
  ((Zero.write B s).bind (One.write B)).bind
    (fun s2 => RandomByte.write B b (FileWriter.verifyNext s2))

/-- A fresh write state for an N-byte file holding the given content. -/
def mkWState (content : List Nat) : WState :=
  { fd := { path := "file", size := content.length, checksum := [],
            verifyChecksum := false }
    content := content
    trace := [] }

/-! ## Retry controller (the fileStandard factory of src/lib/remove.ts)

The do/while loop of fileStandard(...).remove: run one attempt
(init, steps, Deno.remove); on success clear retryNeeded and exit; on
failure record the error, decrement retries, and repeat while the
decremented retries is still positive; after the loop, throw the recorded
error exactly when the last attempt failed.  The attempt body is injected
as a function from the attempt index, so that failures can be injected
per attempt; the result is the number of attempts performed and the error
surfaced to the caller (none when the call resolves). -/

def removeLoop (attempt : Nat → Except String Unit) :
    Nat → Nat → Nat × Option String
  | i, 0 =>
    match attempt i with
    | .ok _ => (i + 1, none)
    | .error e => (i + 1, some e)
  | i, 1 =>
    match attempt i with
    | .ok _ => (i + 1, none)
    | .error e => (i + 1, some e)
  | i, r + 2 =>
    match attempt i with
    | .ok _ => (i + 1, none)
    | .error _ => removeLoop attempt (i + 1) (r + 1)

/-- fileStandard(stepsCount, steps).remove with an injected attempt body:
returns how many attempts ran and which error (if any) was thrown. -/
def fileStandardRemove (attempt : Nat → Except String Unit)
    (retries : Nat) : Nat × Option String :=
  removeLoop attempt 0 retries

/-- One attempt of a file standard: FileWriter.init on the path, then the
steps; Deno.remove of the (renamed) path is modelled as always succeeding
here, since the claims about the retry bound only inject failures in
init or in the steps. -/
def fileAttempt (path : String) (isFile : Bool) (size : Nat)
    (steps : FileData → Except String Unit) : Except String Unit :=
  (FileWriter.init path isFile size).bind steps

/-! ## Object properties mutator: truncate (src/lib/writer.ts)

FileProperties.truncate computes
newSize = Math.floor((0.25 + Math.random() * 0.5) * fileData.size);
Math.random() draws uniformly from [0, 1).  The draw is passed in
explicitly as a rational. -/

/-- The new size computed by FileProperties.truncate for a draw
`rand` of Math.random() and a tracked size `size`. -/
def FileProperties.truncateNewSize (rand : ℚ) (size : Nat) : Nat :=
  ⌊(1/4 + rand * (1/2)) * (size : ℚ)⌋₊

/-! ## Filesystem model for the tree walker (src/lib/remove.ts)

Paths are lists of name segments; the filesystem is a flat association
list from paths to nodes.  A directory tree (mutual with forests of
sibling entries, standing for the `List` of readDir results) generates
both the flat filesystem and the walk orders of std fs.walk v0.56:
walk yields the root first when directories are included, then processes
the readDir entries in order, recursing into subdirectories in place. -/

abbrev FsPath := List String

/-- q starts with p, i.e. q = p or q lies below the directory p. -/
def pathStartsWith : FsPath → FsPath → Bool
  | _, [] => true
  | [], _ :: _ => false
  | a :: q, b :: p => a = b && pathStartsWith q p

/-- A filesystem node: a regular file with its bytes, or a directory. -/
inductive FsNode where
  | file (content : List Nat)
  | dir
deriving Repr, DecidableEq

abbrev Fs := List (FsPath × FsNode)

def fsLookup (fs : Fs) (p : FsPath) : Option FsNode :=
  match fs.find? (fun e => e.1 = p) with
  | some e => some e.2
  | none => none

mutual
inductive FsTree where
  | file (name : String) (content : List Nat)
  | dir (name : String) (children : FsForest)
deriving Repr, DecidableEq
inductive FsForest where
  | nil
  | cons (t : FsTree) (rest : FsForest)
deriving Repr, DecidableEq
end

def FsTree.name : FsTree → String
  | .file n _ => n
  | .dir n _ => n

mutual
/-- The flat filesystem entries of a tree mounted under `p`. -/
def FsTree.toFs (p : FsPath) : FsTree → Fs
  | .file n c => [(p ++ [n], .file c)]
  | .dir n cs => (p ++ [n], .dir) :: cs.toFs (p ++ [n])
def FsForest.toFs (p : FsPath) : FsForest → Fs
  | .nil => []
  | .cons t rest => t.toFs p ++ rest.toFs p
end

mutual
/-- Files yielded by fs.walk(root, { includeDirs: false }), in order. -/
def walkFiles (p : FsPath) : FsTree → List FsPath
  | .file n _ => [p ++ [n]]
  | .dir n cs => walkFilesF (p ++ [n]) cs
def walkFilesF (p : FsPath) : FsForest → List FsPath
  | .nil => []
  | .cons t rest => walkFiles p t ++ walkFilesF p rest
end

mutual
/-- Directories yielded by fs.walk(root, { includeFiles: false }), in
order: each directory is yielded before its contents are walked, so the
list is a preorder with the root first. -/
def walkDirs (p : FsPath) : FsTree → List FsPath
  | .file _ _ => []
  | .dir n cs => (p ++ [n]) :: walkDirsF (p ++ [n]) cs
def walkDirsF (p : FsPath) : FsForest → List FsPath
  | .nil => []
  | .cons t rest => walkDirs p t ++ walkDirsF p rest
end

/-- Deno.rename: moves the subtree at `src` to `dst`; rejects when `src`
does not exist. -/
def denoRename (src dst : FsPath) (fs : Fs) : Except String Fs :=
  if (fsLookup fs src).isSome then
    .ok (fs.map (fun e =>
      if pathStartsWith e.1 src then (dst ++ e.1.drop src.length, e.2) else e))
  else
    .error "NotFound"

/-- Deno.remove: rejects when the path does not exist; removes a file or,
recursively, a whole directory subtree; a non-recursive remove of a
non-empty directory rejects. -/
def denoRemove (p : FsPath) (recursive : Bool) (fs : Fs) : Except String Fs :=
  match fsLookup fs p with
  | none => .error "NotFound"
  | some (.file _) => .ok (fs.filter (fun e => e.1 ≠ p))
  | some .dir =>
    if recursive then
      .ok (fs.filter (fun e => ¬ pathStartsWith e.1 p))
    else if fs.any (fun e => pathStartsWith e.1 p && e.1 ≠ p) then
      .error "Directory not empty"
    else
      .ok (fs.filter (fun e => e.1 ≠ p))

/-- uuid.v4.generate() modelled as a fresh name from a counter. -/
def uuidName (k : Nat) : String := "uuid-" ++ toString k

/-- DirectoryWriter.init: stats the path; rejects when missing or when it
is not a directory. -/
def DirectoryWriter.init (p : FsPath) (fs : Fs) : Except String FsPath :=
  match fsLookup fs p with
  | none => .error "NotFound"
  | some (.file _) => .error "The specified path is not a directory."
  | some .dir => .ok p

/-- DirectoryProperties.rename: moves the directory to a fresh uuid name
inside its parent directory and returns the new path. -/
def DirectoryProperties.rename (d : FsPath) (newName : String) (fs : Fs) :
    Except String (FsPath × Fs) :=
  let newPath := d.dropLast ++ [newName]
  (denoRename d newPath fs).map (fun fs' => (newPath, fs'))

/-- One attempt of directoryStandards.forever (the default directory
standard): DirectoryWriter.init from the original path, rename to a fresh
uuid, then a non-recursive Deno.remove of the renamed path.  Filesystem
mutations of a failing attempt persist (the rename is not rolled back);
the uuid counter advances when uuid.v4.generate() is reached. -/
def dirForeverAttempt (d : FsPath) (u : Nat) (fs : Fs) :
    Option String × Fs × Nat :=
  match DirectoryWriter.init d fs with
  | .error e => (some e, fs, u)
  | .ok p =>
    match DirectoryProperties.rename p (uuidName u) fs with
    | .error e => (some e, fs, u + 1)
    | .ok (p2, fs2) =>
      match denoRemove p2 false fs2 with
      | .error e => (some e, fs2, u + 1)
      | .ok fs3 => (none, fs3, u + 1)

/-- The do/while retry loop of the directoryStandard factory, threading
the filesystem and the uuid counter through the attempts; same retry
bound as the file loop: repeat on failure while the decremented retries
stays positive. -/
def dirRemoveLoop (d : FsPath) : Nat → Nat → Fs → Fs × Nat × Option String
  | 0, u, fs => (fun (e, fs', u') => (fs', u', e)) (dirForeverAttempt d u fs)
  | 1, u, fs => (fun (e, fs', u') => (fs', u', e)) (dirForeverAttempt d u fs)
  | r + 2, u, fs =>
    match dirForeverAttempt d u fs with
    | (none, fs', u') => (fs', u', none)
    | (some _, fs', u') => dirRemoveLoop d (r + 1) u' fs'

/-- The injected per-file standard of the directory-erase scenarios: a
file whose path is in `failing` always fails (the file stays on disk); any
other file's standard succeeds, ending in the Deno.remove of the file. -/
def injectedFileStandard (failing : List FsPath) (f : FsPath) (fs : Fs) :
    Option String × Fs :=
  if f ∈ failing then (some "Injected failure", fs)
  else (none, fs.filter (fun e => e.1 ≠ f))

/-- The file phase of removeDirectory: options.fileStandard is started for
every walked file and the rejections are collected (Promise.allSettled +
getRejected); the tasks touch pairwise distinct paths, so they are run in
list order. -/
def runFileTasks (fileStd : FsPath → Fs → Option String × Fs) :
    List FsPath → Fs → Fs × List FsPath
  | [], fs => (fs, [])
  | f :: rest, fs =>
    let (e, fs') := fileStd f fs
    let (fs'', rej) := runFileTasks fileStd rest fs'
    (fs'', (match e with | some _ => [f] | none => []) ++ rej)

/-- The directory phase of removeDirectory: the directory standard runs
sequentially over the given list (already reversed by the caller, as in
the source's downward for loop), collecting rejected directories. -/
def runDirTasks (retries : Nat) :
    List FsPath → Nat → Fs → Fs × Nat × List FsPath
  | [], u, fs => (fs, u, [])
  | d :: rest, u, fs =>
    let (fs', u', e) := dirRemoveLoop d retries u fs
    let (fs'', u'', rej) := runDirTasks retries rest u' fs'
    (fs'', u'', (match e with | some _ => [d] | none => []) ++ rej)

/-- Outcome of removeDirectory: a resolved success count, a rejection
with the list of failed paths, or a rejection with the raw error thrown
by the final cleanup Deno.remove.  The final filesystem is carried along
for observation. -/
inductive RemoveResult where
  | count (n : Nat) (fs : Fs)
  | rejectedList (paths : List FsPath) (fs : Fs)
  | thrown (e : String) (fs : Fs)
deriving Repr, DecidableEq

/-- removeDirectory of src/lib/remove.ts on a directory tree `t` mounted
at the filesystem root, with the default forever directory standard and an
injected file standard: walk the files and the directories, run the file
standard over every file, abort with the rejected files unless
ignoreErrors; run the directory standard bottom-up (the walk list
reversed), abort with the rejected directories unless ignoreErrors; when
anything was rejected, run the final cleanup Deno.remove(dir,
recursive: true) on the original root path; finally resolve
files + directories - rejectedFiles - rejectedDirectories. -/
def removeDirectory (t : FsTree) (ignoreErrors : Bool) (retries : Nat)
    (fileStd : FsPath → Fs → Option String × Fs) : RemoveResult :=
  let dir : FsPath := [t.name]
  let fs0 := t.toFs []
  let files := walkFiles [] t
  let directories := walkDirs [] t
  let (fs1, rejectedFiles) := runFileTasks fileStd files fs0
  if rejectedFiles.length > 0 && !ignoreErrors then
    .rejectedList rejectedFiles fs1
  else
    let (fs2, _, rejectedDirectories) :=
      runDirTasks retries directories.reverse 0 fs1
    if rejectedDirectories.length > 0 && !ignoreErrors then
      .rejectedList rejectedDirectories fs2
    else if rejectedDirectories.length > 0 || rejectedFiles.length > 0 then
      match denoRemove dir true fs2 with
      | .error e => .thrown e fs2
      | .ok fs3 =>
        .count (files.length + directories.length
          - rejectedFiles.length - rejectedDirectories.length) fs3
    else
      .count (files.length + directories.length
        - rejectedFiles.length - rejectedDirectories.length) fs2

/-- The directory tree of the spec's scenario: a root directory holding
three files and one subdirectory. -/
def scenarioTree : FsTree :=
  .dir "root" (.cons (.file "f1" [1, 1])
    (.cons (.file "f2" [2, 2])
      (.cons (.dir "sub" (.cons (.file "f3" [3, 3]) .nil)) .nil)))

/-- The spec's scenario: erase the tree with ignoreErrors = true, the
default retries = 3, and a file standard that always fails on the first
file. -/
def scenarioResult : RemoveResult :=
  removeDirectory scenarioTree true 3
    (injectedFileStandard [["root", "f1"]])

/-! ## Processing order of removeDirectory

The file tasks are all dispatched and joined (Promise.allSettled) before
the directory loop starts, and the directory loop runs over the walk list
reversed; so one object's standard starts only after every object earlier
in this list has been fully processed. -/

/-- The order in which removeDirectory processes the objects of the tree:
all files in walk order, then all directories in reverse walk order. -/
def processOrder (t : FsTree) : List FsPath :=
  walkFiles [] t ++ (walkDirs [] t).reverse

def FsForest.names : FsForest → List String
  | .nil => []
  | .cons t rest => t.name :: rest.names

mutual
/-- Real directory trees have pairwise distinct sibling names. -/
def FsTree.wf : FsTree → Bool
  | .file _ _ => true
  | .dir _ cs => cs.wf
def FsForest.wf : FsForest → Bool
  | .nil => true
  | .cons t rest => t.wf && decide (t.name ∉ rest.names) && rest.wf
end

/-- The file content left by a single ByteArray(bytes) pass over a fresh
N-byte file (initially all zero bytes). -/
def byteArrayRun (byteArray : List Nat) (N : Nat) : List Nat :=
  match ByteArray.write DEFAULT_BUF_SIZE byteArray
      (mkWState (List.replicate N 0)) with
  | .ok s => s.content
  | .error _ => []

/-! ## Lemmas about the write pass byte stream -/

theorem chunkContent_length (g : Nat → Nat) (n : Nat) :
    (chunkContent g n).length = n := by
  simp [chunkContent]

theorem chunkContent_getD (g : Nat → Nat) {n i : Nat} (h : i < n) :
    (chunkContent g n).getD i 0 = g i := by
  rw [chunkContent, List.getD_eq_getElem?_getD, List.getElem?_map,
    List.getElem?_range h]
  rfl

theorem writeChunksAux_flatten_length (B : Nat) (g : Nat → Nat) (hB : 0 < B) :
    ∀ fuel size, size ≤ fuel →
      ((writeChunksAux B g fuel size).flatten).length = size := by
  intro fuel
  induction fuel with
  | zero => intro size hs; interval_cases size; simp [writeChunksAux]
  | succ fuel ih =>
    intro size hs
    match size with
    | 0 => simp [writeChunksAux]
    | s + 1 =>
      rw [writeChunksAux, List.flatten_cons, List.length_append,
        chunkContent_length, ih (s + 1 - min B (s + 1)) (by omega)]
      omega

theorem writtenBytes_length (B : Nat) (g : Nat → Nat) (hB : 0 < B)
    (size : Nat) : (writtenBytes B g size).length = size :=
  writeChunksAux_flatten_length B g hB size size le_rfl

theorem writeChunksAux_flatten_getD (B : Nat) (g : Nat → Nat) (hB : 0 < B) :
    ∀ fuel size, size ≤ fuel → ∀ i, i < size →
      ((writeChunksAux B g fuel size).flatten).getD i 0 = g (i % B) := by
  intro fuel
  induction fuel with
  | zero => intro size hs i hi; omega
  | succ fuel ih =>
    intro size hs i hi
    match size with
    | 0 => omega
    | s + 1 =>
      rw [writeChunksAux, List.flatten_cons]
      by_cases hlt : i < min B (s + 1)
      · rw [List.getD_append _ _ _ _ (by rw [chunkContent_length]; exact hlt),
          chunkContent_getD g hlt, Nat.mod_eq_of_lt (by omega)]
      · have hBm : min B (s + 1) = B := by omega
        have hBle : B ≤ i := by omega
        rw [List.getD_append_right _ _ _ _
            (by rw [chunkContent_length]; omega),
          chunkContent_length, hBm,
          ih (s + 1 - B) (by omega) (i - B) (by omega),
          ← Nat.mod_eq_sub_mod hBle]

theorem writtenBytes_getD (B : Nat) (g : Nat → Nat) (hB : 0 < B)
    {size i : Nat} (hi : i < size) :
    (writtenBytes B g size).getD i 0 = g (i % B) :=
  writeChunksAux_flatten_getD B g hB size size le_rfl i hi

theorem writtenBytes_const (B : Nat) (c : Nat) (hB : 0 < B) (size : Nat) :
    writtenBytes B (fun _ => c) size = List.replicate size c := by
  rw [List.eq_replicate_iff]
  refine ⟨writtenBytes_length B _ hB size, ?_⟩
  intro b hb
  obtain ⟨i, hi, hget⟩ := List.getElem_of_mem hb
  have := @writtenBytes_getD B (fun _ => c) hB size i
    (by rwa [writtenBytes_length B _ hB size] at hi)
  rwa [List.getD_eq_getElem _ _ hi, hget] at this


theorem pathStartsWith_iff : ∀ (q p : FsPath),
    pathStartsWith q p = true ↔ ∃ s, q = p ++ s
  | _, [] => by simp [pathStartsWith]
  | [], _ :: _ => by simp [pathStartsWith]
  | a :: q, b :: p => by
    simp [pathStartsWith, pathStartsWith_iff q p, @eq_comm _ a b,
      and_assoc]

theorem pathStartsWith_len {q p : FsPath} (h : pathStartsWith q p = true) :
    p.length ≤ q.length := by
  obtain ⟨s, rfl⟩ := (pathStartsWith_iff q p).1 h
  simp

mutual
theorem walkDirs_extends : ∀ (t : FsTree) (p q : FsPath),
    q ∈ walkDirs p t → pathStartsWith q (p ++ [t.name]) = true
  | .file n c, p, q => by simp [walkDirs]
  | .dir n cs, p, q => by
    intro hq
    rw [walkDirs] at hq
    rcases List.mem_cons.1 hq with rfl | hq
    · exact (pathStartsWith_iff _ _).2 ⟨[], by simp [FsTree.name]⟩
    · obtain ⟨nm, _, hsw⟩ := walkDirsF_extends cs (p ++ [n]) q hq
      obtain ⟨s, rfl⟩ := (pathStartsWith_iff _ _).1 hsw
      exact (pathStartsWith_iff _ _).2 ⟨[nm] ++ s, by simp [FsTree.name]⟩
theorem walkDirsF_extends : ∀ (f : FsForest) (p q : FsPath),
    q ∈ walkDirsF p f →
      ∃ nm, nm ∈ f.names ∧ pathStartsWith q (p ++ [nm]) = true
  | .nil, p, q => by simp [walkDirsF]
  | .cons t rest, p, q => by
    intro hq
    rw [walkDirsF] at hq
    rcases List.mem_append.1 hq with hq | hq
    · exact ⟨t.name, by simp [FsForest.names],
        walkDirs_extends t p q hq⟩
    · obtain ⟨nm, hnm, hsw⟩ := walkDirsF_extends rest p q hq
      exact ⟨nm, by simp [FsForest.names, hnm], hsw⟩
end

theorem pathStartsWith_trans {a b c : FsPath}
    (hab : pathStartsWith a b = true) (hbc : pathStartsWith b c = true) :
    pathStartsWith a c = true := by
  obtain ⟨s, rfl⟩ := (pathStartsWith_iff a b).1 hab
  obtain ⟨s', rfl⟩ := (pathStartsWith_iff b c).1 hbc
  exact (pathStartsWith_iff _ _).2 ⟨s' ++ s, by simp⟩

theorem pathStartsWith_branch {p : FsPath} {a b : String} {q : FsPath}
    (ha : pathStartsWith q (p ++ [a]) = true)
    (hb : pathStartsWith q (p ++ [b]) = true) : a = b := by
  obtain ⟨s, hs⟩ := (pathStartsWith_iff _ _).1 ha
  obtain ⟨s', hs'⟩ := (pathStartsWith_iff _ _).1 hb
  rw [hs, List.append_assoc, List.append_assoc] at hs'
  have := List.append_cancel_left hs'
  simpa using congrArg List.head? this

mutual
theorem walkDirs_ancestor_sublist : ∀ (t : FsTree) (p d1 d2 : FsPath),
    FsTree.wf t = true → d1 ∈ walkDirs p t → d2 ∈ walkDirs p t →
    d1 ≠ d2 → pathStartsWith d2 d1 = true →
    List.Sublist [d1, d2] (walkDirs p t)
  | .file n c, p, d1, d2 => by simp [walkDirs]
  | .dir n cs, p, d1, d2 => by
    intro hwf h1 h2 hne hsw
    rw [walkDirs] at h1 h2 ⊢
    rcases List.mem_cons.1 h1 with rfl | h1
    · rcases List.mem_cons.1 h2 with rfl | h2
      · exact absurd rfl hne
      · exact (List.singleton_sublist.2 h2).cons₂ _
    · rcases List.mem_cons.1 h2 with rfl | h2
      · obtain ⟨nm, _, hsw1⟩ := walkDirsF_extends cs (p ++ [n]) d1 h1
        have hlen1 := pathStartsWith_len hsw1
        have hlen2 := pathStartsWith_len hsw
        simp at hlen1 hlen2
        omega
      · have hwf' : FsForest.wf cs = true := by
          rw [FsTree.wf] at hwf; exact hwf
        exact (walkDirsF_ancestor_sublist cs (p ++ [n]) d1 d2
          hwf' h1 h2 hne hsw).cons _
theorem walkDirsF_ancestor_sublist : ∀ (f : FsForest) (p d1 d2 : FsPath),
    FsForest.wf f = true → d1 ∈ walkDirsF p f → d2 ∈ walkDirsF p f →
    d1 ≠ d2 → pathStartsWith d2 d1 = true →
    List.Sublist [d1, d2] (walkDirsF p f)
  | .nil, p, d1, d2 => by simp [walkDirsF]
  | .cons t rest, p, d1, d2 => by
    intro hwf h1 h2 hne hsw
    rw [FsForest.wf, Bool.and_assoc, Bool.and_eq_true, Bool.and_eq_true,
      decide_eq_true_iff] at hwf
    obtain ⟨hwt, hnost, hwrest⟩ := hwf
    rw [walkDirsF] at h1 h2 ⊢
    rcases List.mem_append.1 h1 with h1 | h1
    · rcases List.mem_append.1 h2 with h2 | h2
      · exact (walkDirs_ancestor_sublist t p d1 d2 hwt h1 h2 hne
          hsw).trans (List.sublist_append_left _ _)
      · obtain ⟨nm, hnm, hsw2⟩ := walkDirsF_extends rest p d2 h2
        have hsw1 := walkDirs_extends t p d1 h1
        have : nm = t.name :=
          pathStartsWith_branch hsw2 (pathStartsWith_trans hsw hsw1)
        exact absurd (this ▸ hnm) hnost
    · rcases List.mem_append.1 h2 with h2 | h2
      · obtain ⟨nm, hnm, hsw1⟩ := walkDirsF_extends rest p d1 h1
        have hsw2 := walkDirs_extends t p d2 h2
        have : t.name = nm :=
          pathStartsWith_branch hsw2 (pathStartsWith_trans hsw hsw1)
        exact absurd (this ▸ hnm) hnost
      · exact (walkDirsF_ancestor_sublist rest p d1 d2 hwrest h1 h2 hne
          hsw).trans (List.sublist_append_right _ _)
end

theorem processOrder_getLast (n : String) (cs : FsForest) :
    (processOrder (.dir n cs)).getLast? = some [n] := by
  rw [processOrder, walkDirs, List.reverse_cons, ← List.append_assoc,
    List.getLast?_concat]
  rfl

theorem removeLoop_allFail (e : String) : ∀ (r i : Nat),
    removeLoop (fun _ => .error e) i r = (i + max 1 r, some e)
  | 0, i => by simp [removeLoop]
  | 1, i => by simp [removeLoop]
  | r + 2, i => by
    rw [removeLoop, removeLoop_allFail e (r + 1) (i + 1)]
    have : i + 1 + max 1 (r + 1) = i + max 1 (r + 2) := by omega
    rw [this]

theorem removeLoop_ok (attempt : Nat → Except String Unit) (i : Nat)
    (h : attempt i = .ok ()) :
    ∀ r, removeLoop attempt i r = (i + 1, none)
  | 0 => by simp [removeLoop, h]
  | 1 => by simp [removeLoop, h]
  | _ + 2 => by simp [removeLoop, h]

theorem write_no_verify (B : Nat) (g : Nat → Nat) (s : WState)
    (h : s.fd.verifyChecksum = false) :
    FileWriter.write B g s = .ok
      { fd := { path := s.fd.path
                size := s.fd.size - (writtenBytes B g s.fd.size).length
                checksum := s.fd.checksum
                verifyChecksum := false }
        content := writtenBytes B g s.fd.size ++
          s.content.drop (writtenBytes B g s.fd.size).length
        trace := s.trace ++ [writtenBytes B g s.fd.size] } := by
  simp [FileWriter.write, h]

theorem write_verify (B : Nat) (g : Nat → Nat) (s : WState) (hB : 0 < B)
    (h : s.fd.verifyChecksum = true) (hck : s.fd.checksum = [])
    (hlen : s.content.length = s.fd.size) :
    FileWriter.write B g s = .ok
      { fd := { path := s.fd.path
                size := 0
                checksum := writtenBytes B g s.fd.size
                verifyChecksum := false }
        content := writtenBytes B g s.fd.size
        trace := s.trace ++ [writtenBytes B g s.fd.size] } := by
  have hout : (writtenBytes B g s.fd.size).length = s.fd.size :=
    writtenBytes_length B g hB s.fd.size
  have hdrop : s.content.drop s.fd.size = [] := by
    rw [← hlen, List.drop_length]
  simp [FileWriter.write, FileWriter.verify, h, hck, hout, hdrop,
    Except.map]

/-! ## Claims -/

/-- C1: the claim that every overwrite pass of a standard writes the
file's full current size fails on the code: the reader of
FileWriter.write decrements fileData.size itself, so after the first pass
the tracked size is 0 and every later pass of a multi-pass standard
writes 0 bytes.  Running the GOST-R50739-95 steps (zero pass, then
random-byte pass) on a 4-byte file: the first pass emits 4 bytes, the
second pass emits 0 bytes, and the file is left holding the zeros of
pass 1 (the random pass never touches it). -/
theorem c1_gost_second_pass_writes_nothing :
    (fileStandards.gostSteps DEFAULT_BUF_SIZE 0x5A
        (mkWState [1, 2, 3, 4])).map
      (fun s => (s.trace.map List.length, s.content)) =
    .ok ([4, 0], [0, 0, 0, 0]) := by
  rfl

/-- C2 counterexample: the claim promises retries + 1 attempts; with
retries = 2 and a failure injected on every attempt, the fileStandard
retry loop performs exactly 2 attempts, not 3. -/
theorem c2_counterexample :
    fileStandardRemove (fun _ => .error "Injected failure") 2 =
      (2, some "Injected failure") ∧ (2 : Nat) ≠ 3 := by
  exact ⟨rfl, by decide⟩

/-- C2 amended: the fileStandard factory's loop performs up to
max 1 retries attempts (the loop decrements retries before testing
retries > 0).  With a failure on every attempt there are exactly
max 1 retries attempts and the last error is surfaced; with a failure
only on the first attempt the second attempt runs and succeeds, with no
error surfaced, exactly when retries is at least 2; retries = 0 means
exactly one attempt. -/
theorem c2_retry_bound (r : Nat) (e : String)
    (attempt : Nat → Except String Unit) :
    fileStandardRemove (fun _ => .error e) r = (max 1 r, some e) ∧
    fileStandardRemove (fun i => if i = 0 then .error e else .ok ()) r =
      (if 2 ≤ r then (2, none) else (1, some e)) ∧
    (fileStandardRemove attempt 0).1 = 1 := by
  refine ⟨?_, ?_, ?_⟩
  · rw [fileStandardRemove, removeLoop_allFail e r 0, Nat.zero_add]
  · match r with
    | 0 => rfl
    | 1 => rfl
    | r + 2 =>
      rw [fileStandardRemove, removeLoop,
        removeLoop_ok _ 1 rfl (r + 1)]
      simp
  · rw [fileStandardRemove]
    match h : attempt 0 with
    | .ok _ => simp [removeLoop, h]
    | .error e => simp [removeLoop, h]

/-- C3: the registry's zero file standard is fileStandard(1, One.write):
its single overwrite pass fills the whole file with 0xFF bytes (the One
pattern coerced through Uint8Array.fill), not with 0x00 bytes. -/
theorem c3_zero_standard_writes_ones (c : List Nat) :
    fileStandards.zeroSteps DEFAULT_BUF_SIZE (mkWState c) = .ok
      { fd := { path := "file", size := 0, checksum := [],
                verifyChecksum := false }
        content := List.replicate c.length 255
        trace := [List.replicate c.length 255] } ∧
    (0 < c.length →
      List.replicate c.length 255 ≠ List.replicate c.length 0) := by
  have hone : One.getValues = fun _ => 255 := rfl
  have hB : 0 < DEFAULT_BUF_SIZE := by decide
  have hout : writtenBytes DEFAULT_BUF_SIZE One.getValues c.length =
      List.replicate c.length 255 := by
    rw [hone]; exact writtenBytes_const DEFAULT_BUF_SIZE 255 hB c.length
  constructor
  · rw [fileStandards.zeroSteps, One.write,
      write_no_verify DEFAULT_BUF_SIZE One.getValues (mkWState c) rfl]
    simp [mkWState, hout, List.drop_length]
  · intro hpos heq
    match hc : c.length, hpos with
    | n + 1, _ =>
      rw [hc] at heq
      simp [List.replicate] at heq

/-- C4: the claim fails on the code in the tolerated-failure case.  In
the spec's scenario (a root directory with three files and one
subdirectory, one file standard injected to always fail,
ignoreErrors = true, default retries = 3), the forever directory standard
renames the root to a uuid before its non-recursive Deno.remove fails on
the non-empty directory; the final cleanup then calls Deno.remove on the
original root path, which no longer exists, so removeDirectory rejects
with the raw NotFound error and the root directory survives on disk under
its uuid name, still holding the failed file. -/
theorem c4_root_survives_rename :
    scenarioResult = .thrown "NotFound"
      [(["uuid-1"], .dir), (["uuid-1", "f1"], .file [1, 1])] := by
  rfl

/-- C5: in the spec's scenario the directory erase never resolves with a
success count at all (so in particular not with 2): it rejects with the
cleanup's NotFound error.  Moreover the count formula of the code,
exercised on the same tree with no injected failure, resolves with 5 =
3 files + 2 directories (the walk counts the subdirectory and the root
itself), not with the claim's 3 total objects. -/
theorem c5_no_success_count :
    (∀ (n : Nat) (fs : Fs), scenarioResult ≠ RemoveResult.count n fs) ∧
    removeDirectory scenarioTree true 3 (injectedFileStandard []) =
      .count 5 [] := by
  constructor
  · intro n fs h
    rw [show scenarioResult = .thrown "NotFound"
      [(["uuid-1"], .dir), (["uuid-1", "f1"], .file [1, 1])] from rfl] at h
    exact RemoveResult.noConfusion h
  · rfl

/-- C6: the processing order of removeDirectory (all walked files, then
the walked directories reversed) satisfies the claimed ordering: every
file is processed before every directory; a directory descendant is
processed before its ancestor (bottom-up); and the root directory is
processed last.  Sibling names in a real directory tree are distinct
(FsTree.wf). -/
theorem c6_processing_order (n : String) (cs : FsForest)
    (f d d1 d2 : FsPath)
    (hwf : FsTree.wf (.dir n cs) = true)
    (hf : f ∈ walkFiles [] (.dir n cs))
    (hd : d ∈ walkDirs [] (.dir n cs))
    (h1 : d1 ∈ walkDirs [] (.dir n cs))
    (h2 : d2 ∈ walkDirs [] (.dir n cs))
    (hne : d1 ≠ d2) (hsw : pathStartsWith d2 d1 = true) :
    List.Sublist [f, d] (processOrder (.dir n cs)) ∧
    List.Sublist [d2, d1] (processOrder (.dir n cs)) ∧
    (processOrder (.dir n cs)).getLast? = some [n] := by
  refine ⟨?_, ?_, processOrder_getLast n cs⟩
  · rw [processOrder]
    have hfs : List.Sublist [f] (walkFiles [] (.dir n cs)) :=
      List.singleton_sublist.2 hf
    have hds : List.Sublist [d] (walkDirs [] (.dir n cs)).reverse :=
      List.singleton_sublist.2 (List.mem_reverse.2 hd)
    exact List.Sublist.append hfs hds
  · rw [processOrder]
    have h12 : List.Sublist [d1, d2] (walkDirs [] (.dir n cs)) :=
      walkDirs_ancestor_sublist _ [] d1 d2 hwf h1 h2 hne hsw
    have h21 : List.Sublist [d2, d1] (walkDirs [] (.dir n cs)).reverse := by
      have := h12.reverse
      simpa using this
    exact h21.trans (List.sublist_append_right _ _)

/-- C6 witness: in the tree root/(a, sub/(b)), the file root/a is
processed before the directory root/sub, the descendant root/sub is
processed before its ancestor root, and root is processed last. -/
theorem c6_witness :
    List.Sublist [["root", "a"], ["root", "sub"]]
      (processOrder (.dir "root" (.cons (.file "a" [])
        (.cons (.dir "sub" (.cons (.file "b" []) .nil)) .nil)))) ∧
    List.Sublist [["root", "sub"], ["root"]]
      (processOrder (.dir "root" (.cons (.file "a" [])
        (.cons (.dir "sub" (.cons (.file "b" []) .nil)) .nil)))) ∧
    (processOrder (.dir "root" (.cons (.file "a" [])
        (.cons (.dir "sub" (.cons (.file "b" []) .nil)) .nil)))).getLast? =
      some ["root"] :=
  c6_processing_order "root"
    (.cons (.file "a" []) (.cons (.dir "sub" (.cons (.file "b" []) .nil)) .nil))
    ["root", "a"] ["root", "sub"] ["root"] ["root", "sub"]
    (by decide) (by decide) (by decide) (by decide) (by decide)
    (by decide) (by decide)

/-- C7: the clause that verification succeeds absent corruption fails on
the code for every verified pass that follows an earlier pass.  Running
the AFSSI-5020 steps (zero pass, one pass, then verify-next-write and a
random-byte pass) on a 4-byte file in the model, which injects no
corruption anywhere: the reader decremented fileData.size to 0 during
pass 1, so the verified pass 3 emits no chunks, accumulates an empty
checksum over them, re-reads the 4 zero bytes still on disk, and rejects
with the checksum-mismatch error even though nothing was corrupted
between write and read-back.  (The comparison itself is as claimed:
FileWriter.verify fails exactly when the digest of the re-read content
differs from the accumulated one; it is the no-corruption success clause
that the code violates.) -/
theorem c7_verified_pass_spurious_failure :
    fileStandards.afssiSteps DEFAULT_BUF_SIZE 0x5A
      (mkWState [9, 9, 9, 9]) = .error "Invalid checksum" ∧
    (∃ s, fileStandards.gostSteps DEFAULT_BUF_SIZE 0x5A
      (mkWState [9, 9, 9, 9]) = .ok s) := by
  exact ⟨rfl, ⟨_, rfl⟩⟩

/-- C8 counterexample: the claim says a NotAFile failure is not retried
(exactly one attempt regardless of retries); with the default retries = 3
on a path that is not a regular file, the fileStandard loop performs 3
attempts, each failing in FileWriter.init with the NotAFile error. -/
theorem c8_counterexample :
    fileStandardRemove
      (fun _ => fileAttempt "path" false 0 (fun _ => .ok ())) 3 =
      (3, some "The specified path is not a file.") ∧ (3 : Nat) ≠ 1 := by
  exact ⟨rfl, by decide⟩

/-- C8 amended: when the path does not resolve to a regular file, every
attempt fails immediately in FileWriter.init with the NotAFile error, but
the error is retried like any other failure: the loop performs
max 1 retries attempts and surfaces the NotAFile error. -/
theorem c8_notafile_is_retried (r : Nat) (path : String) (size : Nat)
    (steps : FileData → Except String Unit) :
    fileStandardRemove (fun _ => fileAttempt path false size steps) r =
      (max 1 r, some "The specified path is not a file.") := by
  have hfn : (fun _ : Nat => fileAttempt path false size steps) =
      fun _ : Nat =>
        Except.error "The specified path is not a file." := by
    funext i
    rfl
  rw [fileStandardRemove, hfn,
    removeLoop_allFail "The specified path is not a file." r 0,
    Nat.zero_add]

theorem byteArrayRun_eq (byteArray : List Nat) (N : Nat) :
    byteArrayRun byteArray N =
      writtenBytes DEFAULT_BUF_SIZE (ByteArray.getValues byteArray) N := by
  have hB : 0 < DEFAULT_BUF_SIZE := by decide
  have hw := write_no_verify DEFAULT_BUF_SIZE (ByteArray.getValues byteArray)
    (mkWState (List.replicate N 0)) rfl
  have hlen : (writtenBytes DEFAULT_BUF_SIZE
      (ByteArray.getValues byteArray)
      (mkWState (List.replicate N 0)).fd.size).length =
      (mkWState (List.replicate N 0)).fd.size :=
    writtenBytes_length DEFAULT_BUF_SIZE _ hB _
  rw [byteArrayRun, ByteArray.write, hw]
  simp [mkWState] at hlen
  simp [mkWState, hlen, List.drop_replicate, Nat.sub_self]

/-- C9 counterexample: with the 3-byte Gutmann pattern 0x92 0x49 0x24
over a file one byte longer than the 32768-byte copy buffer, the byte at
offset 32768 is 0x92 (the cycle restarts at the chunk boundary), not the
claimed bytes[32768 mod 3] = 0x24. -/
theorem c9_counterexample :
    ¬ ((byteArrayRun [0x92, 0x49, 0x24] (DEFAULT_BUF_SIZE + 1)).getD
        DEFAULT_BUF_SIZE 0 =
      [0x92, 0x49, 0x24].getD (DEFAULT_BUF_SIZE % 3) 0) := by
  rw [byteArrayRun_eq,
    @writtenBytes_getD DEFAULT_BUF_SIZE
      (ByteArray.getValues [0x92, 0x49, 0x24]) (by decide)
      (DEFAULT_BUF_SIZE + 1) DEFAULT_BUF_SIZE (by decide)]
  decide

/-- C9 amended: a ByteArray(bytes) pass leaves the file holding exactly N
bytes where the byte at offset i equals
bytes[(i mod 32768) mod bytes.length] (reduced modulo 256): getValues
refills the copy buffer from pattern index 0 on every read call, so the
cyclic pattern restarts at each 32768-byte chunk boundary; the claimed
continuous cycle bytes[i mod bytes.length] holds exactly on the first
chunk, in particular for every file of at most 32768 bytes. -/
theorem c9_bytearray_chunked_cycle (byteArray : List Nat) (N i : Nat)
    (hi : i < N) :
    (byteArrayRun byteArray N).length = N ∧
    (byteArrayRun byteArray N).getD i 0 =
      byteArray.getD ((i % DEFAULT_BUF_SIZE) % byteArray.length) 0 % 256 ∧
    (i < DEFAULT_BUF_SIZE →
      (byteArrayRun byteArray N).getD i 0 =
        byteArray.getD (i % byteArray.length) 0 % 256) := by
  rw [byteArrayRun_eq]
  refine ⟨writtenBytes_length DEFAULT_BUF_SIZE _ (by decide) N, ?_, ?_⟩
  · rw [writtenBytes_getD DEFAULT_BUF_SIZE _ (by decide) hi]
    rfl
  · intro hiB
    rw [writtenBytes_getD DEFAULT_BUF_SIZE _ (by decide) hi,
      Nat.mod_eq_of_lt hiB]
    rfl

/-- C9 witness: on a 5-byte file with pattern 0xAB 0xCD the cycle is
continuous (the file fits in one chunk). -/
theorem c9_witness :
    (byteArrayRun [0xAB, 0xCD] 5).length = 5 ∧
    (byteArrayRun [0xAB, 0xCD] 5).getD 3 0 =
      [0xAB, 0xCD].getD ((3 % DEFAULT_BUF_SIZE) % 2) 0 % 256 ∧
    (3 < DEFAULT_BUF_SIZE →
      (byteArrayRun [0xAB, 0xCD] 5).getD 3 0 =
        [0xAB, 0xCD].getD (3 % 2) 0 % 256) :=
  c9_bytearray_chunked_cycle [0xAB, 0xCD] 5 3 (by decide)

/-- C10 counterexample: for a file of size 2 and the legal draw
Math.random() = 0 (so r = 0.25, inside [0.25, 0.75)), truncate computes
newSize = floor(0.25 * 2) = 0, violating the claimed lower bound
0.25 * S <= newSize. -/
theorem c10_counterexample :
    FileProperties.truncateNewSize 0 2 = 0 ∧
    ¬ ((1 / 4 : ℚ) * 2 ≤ (FileProperties.truncateNewSize 0 2 : ℚ)) := by
  have h : FileProperties.truncateNewSize 0 2 = 0 := by
    rw [FileProperties.truncateNewSize]
    rw [Nat.floor_eq_zero]
    norm_num
  refine ⟨h, ?_⟩
  rw [h]
  norm_num

/-- C10 amended: truncate computes newSize = floor((0.25 + rand * 0.5) *
size) with rand drawn from [0, 1), so r = 0.25 + rand * 0.5 lies in
[0.25, 0.75); the result never exceeds the size, satisfies
r * S - 1 < newSize, and for nonempty files 0.25 * S - 1 < newSize <
0.75 * S (the claimed sharp lower bound 0.25 * S <= newSize fails only by
the rounding of floor). -/
theorem c10_truncate_bounds (rand : ℚ) (S : Nat)
    (h0 : 0 ≤ rand) (h1 : rand < 1) :
    FileProperties.truncateNewSize rand S ≤ S ∧
    ((1 / 4 + rand * (1 / 2)) * S : ℚ) - 1 <
      (FileProperties.truncateNewSize rand S : ℚ) ∧
    (0 < S →
      ((1 / 4 : ℚ) * S - 1 < (FileProperties.truncateNewSize rand S : ℚ) ∧
       (FileProperties.truncateNewSize rand S : ℚ) < (3 / 4 : ℚ) * S)) := by
  have hS0 : (0 : ℚ) ≤ (S : ℚ) := by positivity
  have hr14 : (1 / 4 : ℚ) ≤ 1 / 4 + rand * (1 / 2) := by nlinarith
  have hr34 : (1 / 4 + rand * (1 / 2) : ℚ) < 3 / 4 := by nlinarith
  have hrS0 : (0 : ℚ) ≤ (1 / 4 + rand * (1 / 2)) * S := by nlinarith
  have hfloor_le : (FileProperties.truncateNewSize rand S : ℚ) ≤
      (1 / 4 + rand * (1 / 2)) * S := by
    rw [FileProperties.truncateNewSize]
    exact Nat.floor_le hrS0
  have hfloor_gt : ((1 / 4 + rand * (1 / 2)) * S : ℚ) - 1 <
      (FileProperties.truncateNewSize rand S : ℚ) := by
    rw [FileProperties.truncateNewSize]
    exact Nat.sub_one_lt_floor _
  refine ⟨?_, hfloor_gt, ?_⟩
  · rw [FileProperties.truncateNewSize]
    calc ⌊((1 / 4 + rand * (1 / 2)) * S : ℚ)⌋₊
        ≤ ⌊(S : ℚ)⌋₊ := Nat.floor_le_floor (by nlinarith)
      _ = S := Nat.floor_natCast S
  · intro hSpos
    have hSpos' : (0 : ℚ) < (S : ℚ) := by exact_mod_cast hSpos
    constructor
    · nlinarith
    · calc (FileProperties.truncateNewSize rand S : ℚ)
          ≤ (1 / 4 + rand * (1 / 2)) * S := hfloor_le
        _ < (3 / 4 : ℚ) * S := by nlinarith

/-- C10 witness: with rand = 0 and S = 1000 the truncated size is
bounded by 1000, exceeds 0.25 * 1000 - 1, and is below 0.75 * 1000. -/
theorem c10_witness :
    FileProperties.truncateNewSize 0 1000 ≤ 1000 ∧
    ((1 / 4 + 0 * (1 / 2)) * 1000 : ℚ) - 1 <
      (FileProperties.truncateNewSize 0 1000 : ℚ) ∧
    (0 < 1000 →
      ((1 / 4 : ℚ) * 1000 - 1 <
        (FileProperties.truncateNewSize 0 1000 : ℚ) ∧
       (FileProperties.truncateNewSize 0 1000 : ℚ) <
        (3 / 4 : ℚ) * 1000)) :=
  c10_truncate_bounds 0 1000 (by norm_num) (by norm_num)



/-- C3 witness: on a 3-byte file the zero standard leaves three 0xFF
bytes, which differ from three 0x00 bytes. -/
theorem c3_witness :
    fileStandards.zeroSteps DEFAULT_BUF_SIZE (mkWState [1, 2, 3]) = .ok
      { fd := { path := "file", size := 0, checksum := [],
                verifyChecksum := false }
        content := List.replicate (List.length [1, 2, 3]) 255
        trace := [List.replicate (List.length [1, 2, 3]) 255] } ∧
    List.replicate (List.length [1, 2, 3]) 255 ≠
      List.replicate (List.length [1, 2, 3]) 0 :=
  ⟨(c3_zero_standard_writes_ones [1, 2, 3]).1,
   (c3_zero_standard_writes_ones [1, 2, 3]).2 (by decide)⟩

/-- C5 witness: the scenario result is not the claimed count of 2. -/
theorem c5_witness :
    scenarioResult ≠ RemoveResult.count 2 [] ∧
    removeDirectory scenarioTree true 3 (injectedFileStandard []) =
      .count 5 [] :=
  ⟨c5_no_success_count.1 2 [], c5_no_success_count.2⟩
